import Mathlib

/-!
# Verification of the pySlipQt viewport/tile addressing engine

Shallow embedding of the anchor ("key tile") bookkeeping of
`src/pyslipqt/pyslipqt.py` (class `PySlipQt`).

Modelling conventions:

* Python `int` is unbounded, so it is modelled as `Int`.
* Python's `%` on a positive modulus agrees with `Int.emod`, which is
  what `%` denotes on `Int` here.
* `normalize_view` only terminates when the tile size is at least one
  pixel; that fact is threaded through the loop definitions as a proof
  argument `hs : 1 ≤ size` used solely for termination.
* Python's truthiness test `if delta_x:` treats both `None` and `0` as
  false; the delta is modelled as an `Int`, so the test becomes
  `delta ≠ 0` (a delta of `None` behaves exactly like `0`).
-/

set_option autoImplicit false

namespace PySlipQt

/-- First normalization loop of `normalize_view` (X branch, the Y branch is
identical up to renaming):
`while self.key_tile_xoffset > 0: self.key_tile_xoffset -= self.tile_size_x;
self.key_tile_left += 1; self.key_tile_left %= self.num_tiles_x`.
State is the pair `(coord, offset)` = `(key_tile_left, key_tile_xoffset)`. -/
def loopUp (size count : Int) (hs : 1 ≤ size) (coord offset : Int) : Int × Int :=
  if 0 < offset then
    loopUp size count hs ((coord + 1) % count) (offset - size)
  else
    (coord, offset)
termination_by offset.toNat
decreasing_by omega

/-- Second normalization loop of `normalize_view`:
`while self.key_tile_xoffset <= -self.tile_size_x:
self.key_tile_xoffset += self.tile_size_x; self.key_tile_left -= 1;
self.key_tile_left = (self.key_tile_left + self.num_tiles_x) % self.num_tiles_x`. -/
def loopDown (size count : Int) (hs : 1 ≤ size) (coord offset : Int) : Int × Int :=
  if offset ≤ -size then
    loopDown size count hs ((coord - 1 + count) % count) (offset + size)
  else
    (coord, offset)
termination_by (-offset).toNat
decreasing_by omega

/-- One axis of `normalize_view` (lines 169-188 for X, 190-208 for Y).
`if delta_x:` guards everything; on a wrapping axis the offset absorbs the
delta and the two loops renormalize; on a bounded axis the body is `pass`. -/
def normAxis (wrap : Bool) (size count : Int) (hs : 1 ≤ size) (delta : Int)
    (s : Int × Int) : Int × Int :=
  if delta ≠ 0 then
    if wrap then
      let o := s.2 - delta
      let p := loopUp size count hs s.1 o
      loopDown size count hs p.1 p.2
    else
      s
  else
    s

/-- Fuel-indexed transcription of the first loop: `none` means the fuel ran
out before the loop guard became false.  Used to state termination of the
`while` loop as an existence-of-fuel theorem. -/
def loopUpFuel (size count : Int) : Nat → Int → Int → Option (Int × Int)
  | 0, coord, offset =>
      if 0 < offset then none else some (coord, offset)
  | n + 1, coord, offset =>
      if 0 < offset then
        loopUpFuel size count n ((coord + 1) % count) (offset - size)
      else
        some (coord, offset)

/-- Fuel-indexed transcription of the second loop. -/
def loopDownFuel (size count : Int) : Nat → Int → Int → Option (Int × Int)
  | 0, coord, offset =>
      if offset ≤ -size then none else some (coord, offset)
  | n + 1, coord, offset =>
      if offset ≤ -size then
        loopDownFuel size count n ((coord - 1 + count) % count) (offset + size)
      else
        some (coord, offset)

/-- The column-list builder of `paintEvent` (lines 269-277; the row loop at
lines 279-287 is identical up to renaming):
`col_list = []; x_coord = key_tile_left; x_pix_start = key_tile_xoffset;
while x_pix_start < view_width: col_list.append(x_coord);
if not wrap_x and x_coord >= num_tiles_x-1: break;
x_coord = (x_coord + 1) % num_tiles_x; x_pix_start += tile_size_x`. -/
def colList (wrap : Bool) (size count width : Int) (hs : 1 ≤ size)
    (coord pix : Int) : List Int :=
  if pix < width then
    if wrap = false ∧ count - 1 ≤ coord then
      [coord]
    else
      coord :: colList wrap size count width hs ((coord + 1) % count) (pix + size)
  else
    []
termination_by (width - pix).toNat
decreasing_by omega

/-- The part of the tile-source contract the engine reads (`Tiles` object):
`UseLevel` decides whether a level is usable, `GetInfo` returns
`(num_tiles_x, num_tiles_y, _, _)` for a level. -/
structure TileSource where
  tile_size_x : Int
  tile_size_y : Int
  wrap_x : Bool
  wrap_y : Bool
  UseLevel : Int → Bool
  GetInfo : Int → Int × Int × Int × Int

/-- The mutable anchor fields of the widget that `zoom_level` and
`normalize_view` touch. -/
structure WidgetState where
  level : Int
  key_tile_left : Int
  key_tile_top : Int
  key_tile_xoffset : Int
  key_tile_yoffset : Int
  num_tiles_x : Int
  num_tiles_y : Int
deriving DecidableEq, Repr

/-- `zoom_level` (lines 313-327).  The returned `Nat` counts the calls to
`self.update()` (redraw requests) the method performed, so "no redraw on
rejection" is checkable.  The method is total: it never throws. -/
def zoom_level (src : TileSource) (s : WidgetState) (lvl : Int) :
    Bool × WidgetState × Nat :=
  let result := src.UseLevel lvl
  if result then
    let info := src.GetInfo lvl
    (result,
     { s with level := lvl, num_tiles_x := info.1, num_tiles_y := info.2.1 },
     1)
  else
    (result, s, 0)

/-- `normalize_view` (lines 162-208): both axes normalized independently,
X with `wrap_x`, `tile_size_x`, `num_tiles_x` and Y with the Y analogues. -/
def normalize_view (src : TileSource) (s : WidgetState)
    (hsx : 1 ≤ src.tile_size_x) (hsy : 1 ≤ src.tile_size_y)
    (delta_x delta_y : Int) : WidgetState :=
  let px := normAxis src.wrap_x src.tile_size_x s.num_tiles_x hsx delta_x
              (s.key_tile_left, s.key_tile_xoffset)
  let py := normAxis src.wrap_y src.tile_size_y s.num_tiles_y hsy delta_y
              (s.key_tile_top, s.key_tile_yoffset)
  { s with key_tile_left := px.1, key_tile_xoffset := px.2,
           key_tile_top := py.1, key_tile_yoffset := py.2 }

/-- The anchor quantity `keyCoord * tileSize + keyOffset`: both
normalization loops preserve it modulo `tileCount * tileSize`. -/
def axisVal (size : Int) (s : Int × Int) : Int :=
  s.1 * size + s.2

/-- A concrete tile source that rejects every level, for exercising the
rejection path of `zoom_level`. -/
def rejectAllSrc : TileSource where
  tile_size_x := 256
  tile_size_y := 256
  wrap_x := true
  wrap_y := true
  UseLevel := fun _ => false
  GetInfo := fun _ => (4, 4, 0, 0)

/-- A concrete widget state for exercising `zoom_level`. -/
def sampleState : WidgetState where
  level := 2
  key_tile_left := 1
  key_tile_top := 2
  key_tile_xoffset := -44
  key_tile_yoffset := -10
  num_tiles_x := 4
  num_tiles_y := 4

/-! ## Unfolding equations for the loop definitions -/

theorem loopUp_stop (size count : Int) (hs : 1 ≤ size) (coord offset : Int)
    (h : ¬ 0 < offset) : loopUp size count hs coord offset = (coord, offset) := by
  unfold loopUp
  simp [h]

theorem loopUp_step (size count : Int) (hs : 1 ≤ size) (coord offset : Int)
    (h : 0 < offset) :
    loopUp size count hs coord offset
      = loopUp size count hs ((coord + 1) % count) (offset - size) := by
  conv_lhs => unfold loopUp
  simp [h]

theorem loopDown_stop (size count : Int) (hs : 1 ≤ size) (coord offset : Int)
    (h : ¬ offset ≤ -size) : loopDown size count hs coord offset = (coord, offset) := by
  unfold loopDown
  simp [h]

theorem loopDown_step (size count : Int) (hs : 1 ≤ size) (coord offset : Int)
    (h : offset ≤ -size) :
    loopDown size count hs coord offset
      = loopDown size count hs ((coord - 1 + count) % count) (offset + size) := by
  conv_lhs => unfold loopDown
  simp [h]

theorem colList_stop (wrap : Bool) (size count width : Int) (hs : 1 ≤ size)
    (coord pix : Int) (h : ¬ pix < width) :
    colList wrap size count width hs coord pix = [] := by
  unfold colList
  simp [h]

theorem colList_brk (wrap : Bool) (size count width : Int) (hs : 1 ≤ size)
    (coord pix : Int) (h : pix < width) (hb : wrap = false ∧ count - 1 ≤ coord) :
    colList wrap size count width hs coord pix = [coord] := by
  unfold colList
  simp [h, hb]

theorem colList_step (wrap : Bool) (size count width : Int) (hs : 1 ≤ size)
    (coord pix : Int) (h : pix < width) (hb : ¬ (wrap = false ∧ count - 1 ≤ coord)) :
    colList wrap size count width hs coord pix
      = coord :: colList wrap size count width hs ((coord + 1) % count) (pix + size) := by
  conv_lhs => unfold colList
  simp only [if_pos h, if_neg hb]

/-! ## Range facts about the normalization loops -/

theorem loopUp_range (size count : Int) (hs : 1 ≤ size) (hc : 1 ≤ count) :
    ∀ n : Nat, ∀ coord offset : Int, offset.toNat ≤ n →
      (loopUp size count hs coord offset = (coord, offset) ∧ offset ≤ 0) ∨
      (-size < (loopUp size count hs coord offset).2 ∧
        (loopUp size count hs coord offset).2 ≤ 0 ∧
        0 ≤ (loopUp size count hs coord offset).1 ∧
        (loopUp size count hs coord offset).1 < count) := by
  intro n
  induction n with
  | zero =>
      intro coord offset hle
      exact Or.inl ⟨loopUp_stop size count hs coord offset (by omega), by omega⟩
  | succ n ih =>
      intro coord offset hle
      by_cases h : 0 < offset
      · rw [loopUp_step size count hs coord offset h]
        rcases ih ((coord + 1) % count) (offset - size) (by omega) with ⟨heq, hle2⟩ | hn
        · right
          rw [heq]
          exact ⟨by omega, by omega,
            Int.emod_nonneg _ (by omega), Int.emod_lt_of_pos _ (by omega)⟩
        · exact Or.inr hn
      · exact Or.inl ⟨loopUp_stop size count hs coord offset h, by omega⟩

theorem loopDown_range (size count : Int) (hs : 1 ≤ size) (hc : 1 ≤ count) :
    ∀ n : Nat, ∀ coord offset : Int, (-offset).toNat ≤ n →
      (loopDown size count hs coord offset = (coord, offset) ∧ -size < offset) ∨
      (-size < (loopDown size count hs coord offset).2 ∧
        (loopDown size count hs coord offset).2 ≤ 0 ∧
        0 ≤ (loopDown size count hs coord offset).1 ∧
        (loopDown size count hs coord offset).1 < count) := by
  intro n
  induction n with
  | zero =>
      intro coord offset hle
      exact Or.inl ⟨loopDown_stop size count hs coord offset (by omega), by omega⟩
  | succ n ih =>
      intro coord offset hle
      by_cases h : offset ≤ -size
      · rw [loopDown_step size count hs coord offset h]
        rcases ih ((coord - 1 + count) % count) (offset + size) (by omega) with ⟨heq, hgt⟩ | hn
        · right
          rw [heq]
          exact ⟨hgt, by omega,
            Int.emod_nonneg _ (by omega), Int.emod_lt_of_pos _ (by omega)⟩
        · exact Or.inr hn
      · exact Or.inl ⟨loopDown_stop size count hs coord offset h, by omega⟩

/-- On a wrapping axis, `normAxis` carries a normalized anchor to a
normalized anchor, for every delta. -/
theorem normAxis_wrap_range (size count : Int) (hs : 1 ≤ size) (hc : 1 ≤ count)
    (delta : Int) (s : Int × Int)
    (h1 : -size < s.2) (h2 : s.2 ≤ 0) (h3 : 0 ≤ s.1) (h4 : s.1 < count) :
    -size < (normAxis true size count hs delta s).2 ∧
    (normAxis true size count hs delta s).2 ≤ 0 ∧
    0 ≤ (normAxis true size count hs delta s).1 ∧
    (normAxis true size count hs delta s).1 < count := by
  obtain ⟨coord, offset⟩ := s
  simp only at h1 h2 h3 h4
  by_cases hd : delta ≠ 0
  · simp only [normAxis, if_pos hd, if_pos rfl]
    rcases loopUp_range size count hs hc (offset - delta).toNat coord (offset - delta)
        le_rfl with ⟨hequ, hleu⟩ | hnu
    · rw [hequ]
      rcases loopDown_range size count hs hc (-(offset - delta)).toNat coord
          (offset - delta) le_rfl with ⟨heqd, hgtd⟩ | hnd
      · rw [heqd]
        exact ⟨hgtd, hleu, h3, h4⟩
      · exact hnd
    · obtain ⟨hu1, hu2, hu3, hu4⟩ := hnu
      rcases loopDown_range size count hs hc
          (-(loopUp size count hs coord (offset - delta)).2).toNat
          (loopUp size count hs coord (offset - delta)).1
          (loopUp size count hs coord (offset - delta)).2 le_rfl with ⟨heqd, _⟩ | hnd
      · rw [heqd]
        exact ⟨hu1, hu2, hu3, hu4⟩
      · exact hnd
  · simp only [normAxis, if_neg hd]
    exact ⟨h1, h2, h3, h4⟩

/-! ## The anchor value modulo `count * size` -/

theorem loopUp_val (size count : Int) (hs : 1 ≤ size) :
    ∀ n : Nat, ∀ coord offset : Int, offset.toNat ≤ n →
      axisVal size (loopUp size count hs coord offset)
        ≡ axisVal size (coord, offset) [ZMOD count * size] := by
  intro n
  induction n with
  | zero =>
      intro coord offset hle
      rw [loopUp_stop size count hs coord offset (by omega)]
  | succ n ih =>
      intro coord offset hle
      by_cases h : 0 < offset
      · rw [loopUp_step size count hs coord offset h]
        have hq : (coord + 1) % count = coord + 1 - count * ((coord + 1) / count) :=
          Int.emod_def _ _
        have step : axisVal size ((coord + 1) % count, offset - size)
            ≡ axisVal size (coord, offset) [ZMOD count * size] := by
          rw [Int.modEq_iff_dvd]
          exact ⟨(coord + 1) / count, by simp only [axisVal]; rw [hq]; ring⟩
        exact (ih ((coord + 1) % count) (offset - size) (by omega)).trans step
      · rw [loopUp_stop size count hs coord offset h]

theorem loopDown_val (size count : Int) (hs : 1 ≤ size) :
    ∀ n : Nat, ∀ coord offset : Int, (-offset).toNat ≤ n →
      axisVal size (loopDown size count hs coord offset)
        ≡ axisVal size (coord, offset) [ZMOD count * size] := by
  intro n
  induction n with
  | zero =>
      intro coord offset hle
      rw [loopDown_stop size count hs coord offset (by omega)]
  | succ n ih =>
      intro coord offset hle
      by_cases h : offset ≤ -size
      · rw [loopDown_step size count hs coord offset h]
        have hq : (coord - 1 + count) % count
            = coord - 1 + count - count * ((coord - 1 + count) / count) :=
          Int.emod_def _ _
        have step : axisVal size ((coord - 1 + count) % count, offset + size)
            ≡ axisVal size (coord, offset) [ZMOD count * size] := by
          rw [Int.modEq_iff_dvd]
          exact ⟨(coord - 1 + count) / count - 1, by simp only [axisVal]; rw [hq]; ring⟩
        exact (ih ((coord - 1 + count) % count) (offset + size) (by omega)).trans step
      · rw [loopDown_stop size count hs coord offset h]

/-- On a wrapping axis, `normAxis` shifts the anchor value by exactly the
delta, modulo `count * size` (also when the delta is zero and the call is
skipped by the truthiness guard). -/
theorem normAxis_wrap_val (size count : Int) (hs : 1 ≤ size) (delta : Int)
    (s : Int × Int) :
    axisVal size (normAxis true size count hs delta s)
      ≡ axisVal size s - delta [ZMOD count * size] := by
  obtain ⟨coord, offset⟩ := s
  by_cases hd : delta ≠ 0
  · simp only [normAxis, if_pos hd, if_pos rfl]
    have h1 := loopUp_val size count hs (offset - delta).toNat coord
        (offset - delta) le_rfl
    have h2 := loopDown_val size count hs
        (-(loopUp size count hs coord (offset - delta)).2).toNat
        (loopUp size count hs coord (offset - delta)).1
        (loopUp size count hs coord (offset - delta)).2 le_rfl
    have h3 : ((loopUp size count hs coord (offset - delta)).1,
               (loopUp size count hs coord (offset - delta)).2)
        = loopUp size count hs coord (offset - delta) := rfl
    rw [h3] at h2
    have h4 : axisVal size (coord, offset - delta)
        = axisVal size (coord, offset) - delta := by
      simp only [axisVal]
      ring
    rw [h4] at h1
    exact h2.trans h1
  · simp only [normAxis, if_neg hd]
    have hd0 : delta = 0 := by omega
    rw [hd0, sub_zero]

/-- Two normalized anchors with the same value modulo `count * size`
coincide. -/
theorem axis_norm_inj (size count : Int) (hs : 1 ≤ size) (hc : 1 ≤ count)
    (s t : Int × Int)
    (hs1 : -size < s.2) (hs2 : s.2 ≤ 0) (hs3 : 0 ≤ s.1) (hs4 : s.1 < count)
    (ht1 : -size < t.2) (ht2 : t.2 ≤ 0) (ht3 : 0 ≤ t.1) (ht4 : t.1 < count)
    (hv : axisVal size s ≡ axisVal size t [ZMOD count * size]) : s = t := by
  obtain ⟨c1, o1⟩ := s
  obtain ⟨c2, o2⟩ := t
  simp only at hs1 hs2 hs3 hs4 ht1 ht2 ht3 ht4
  obtain ⟨k, hk⟩ := Int.modEq_iff_dvd.mp hv
  simp only [axisVal] at hk
  have hb1 : c1 * size ≤ (count - 1) * size :=
    mul_le_mul_of_nonneg_right (by omega) (by omega)
  have hb1' : 0 ≤ c1 * size := mul_nonneg (by omega) (by omega)
  have hb2 : c2 * size ≤ (count - 1) * size :=
    mul_le_mul_of_nonneg_right (by omega) (by omega)
  have hb2' : 0 ≤ c2 * size := mul_nonneg (by omega) (by omega)
  have hcs : 0 < count * size := mul_pos (by omega) (by omega)
  have hring : (count - 1) * size = count * size - size := by ring
  have hk0 : k = 0 := by
    rcases lt_trichotomy k 0 with hk1 | hk1 | hk1
    · exfalso
      have hm : count * size * k ≤ count * size * (-1) :=
        mul_le_mul_of_nonneg_left (by omega) (le_of_lt hcs)
      have hm' : count * size * (-1) = -(count * size) := by ring
      linarith
    · exact hk1
    · exfalso
      have hm : count * size * 1 ≤ count * size * k :=
        mul_le_mul_of_nonneg_left (by omega) (le_of_lt hcs)
      have hm' : count * size * 1 = count * size := by ring
      linarith
  rw [hk0, mul_zero] at hk
  have hco : c2 * size - c1 * size = o1 - o2 := by linarith
  have hcoeq : c1 = c2 := by
    rcases lt_trichotomy c1 c2 with hlt | heq | hgt
    · exfalso
      have hm : 1 * size ≤ (c2 - c1) * size :=
        mul_le_mul_of_nonneg_right (by omega) (by omega)
      have hm' : (c2 - c1) * size = c2 * size - c1 * size := by ring
      linarith
    · exact heq
    · exfalso
      have hm : 1 * size ≤ (c1 - c2) * size :=
        mul_le_mul_of_nonneg_right (by omega) (by omega)
      have hm' : (c1 - c2) * size = c1 * size - c2 * size := by ring
      linarith
  have hoeq : o1 = o2 := by
    rw [hcoeq] at hco
    omega
  rw [hcoeq, hoeq]

/-! ## Termination of the loops, stated through the fuel transcriptions -/

theorem loopUpFuel_correct (size count : Int) (hs : 1 ≤ size) :
    ∀ n : Nat, ∀ coord offset : Int, offset.toNat ≤ n →
      loopUpFuel size count n coord offset
        = some (loopUp size count hs coord offset) := by
  intro n
  induction n with
  | zero =>
      intro coord offset hle
      have h : ¬ 0 < offset := by omega
      rw [loopUp_stop size count hs coord offset h]
      simp [loopUpFuel, h]
  | succ n ih =>
      intro coord offset hle
      by_cases h : 0 < offset
      · rw [loopUp_step size count hs coord offset h]
        simp only [loopUpFuel, if_pos h]
        exact ih ((coord + 1) % count) (offset - size) (by omega)
      · rw [loopUp_stop size count hs coord offset h]
        simp [loopUpFuel, h]

theorem loopDownFuel_correct (size count : Int) (hs : 1 ≤ size) :
    ∀ n : Nat, ∀ coord offset : Int, (-offset).toNat ≤ n →
      loopDownFuel size count n coord offset
        = some (loopDown size count hs coord offset) := by
  intro n
  induction n with
  | zero =>
      intro coord offset hle
      have h : ¬ offset ≤ -size := by omega
      rw [loopDown_stop size count hs coord offset h]
      simp [loopDownFuel, h]
  | succ n ih =>
      intro coord offset hle
      by_cases h : offset ≤ -size
      · rw [loopDown_step size count hs coord offset h]
        simp only [loopDownFuel, if_pos h]
        exact ih ((coord - 1 + count) % count) (offset + size) (by omega)
      · rw [loopDown_stop size count hs coord offset h]
        simp [loopDownFuel, h]

/-! ## Facts about the column-list builder -/

theorem colList_mem_range (wrap : Bool) (size count width : Int) (hs : 1 ≤ size)
    (hc : 1 ≤ count) :
    ∀ n : Nat, ∀ coord pix : Int, (width - pix).toNat ≤ n →
      0 ≤ coord → coord < count →
      ∀ x ∈ colList wrap size count width hs coord pix, 0 ≤ x ∧ x < count := by
  intro n
  induction n with
  | zero =>
      intro coord pix hle h0 h1 x hx
      rw [colList_stop wrap size count width hs coord pix (by omega)] at hx
      simp at hx
  | succ n ih =>
      intro coord pix hle h0 h1 x hx
      by_cases h : pix < width
      · by_cases hb : wrap = false ∧ count - 1 ≤ coord
        · rw [colList_brk wrap size count width hs coord pix h hb] at hx
          simp at hx
          rw [hx]
          exact ⟨h0, h1⟩
        · rw [colList_step wrap size count width hs coord pix h hb] at hx
          rcases List.mem_cons.mp hx with hx | hx
          · rw [hx]
            exact ⟨h0, h1⟩
          · exact ih ((coord + 1) % count) (pix + size) (by omega)
              (Int.emod_nonneg _ (by omega)) (Int.emod_lt_of_pos _ (by omega)) x hx
      · rw [colList_stop wrap size count width hs coord pix h] at hx
        simp at hx

/-- With a zero-width viewport the column list holds exactly the key column
when the key offset is strictly negative, and is empty when the key offset
is zero (`while` tests its condition before the body runs). -/
theorem colList_width_zero (wrap : Bool) (size count : Int) (hs : 1 ≤ size)
    (coord offset : Int) (h1 : -size < offset) (h2 : offset ≤ 0) :
    colList wrap size count 0 hs coord offset
      = if offset < 0 then [coord] else [] := by
  by_cases h : offset < 0
  · rw [if_pos h]
    by_cases hb : wrap = false ∧ count - 1 ≤ coord
    · exact colList_brk wrap size count 0 hs coord offset h hb
    · rw [colList_step wrap size count 0 hs coord offset h hb]
      rw [colList_stop wrap size count 0 hs ((coord + 1) % count) (offset + size)
        (by omega)]
  · rw [if_neg h]
    exact colList_stop wrap size count 0 hs coord offset (by omega)

/-- On a wrapping axis a nonzero delta runs both loops on the shifted
offset. -/
theorem normAxis_wrap_eq (size count : Int) (hs : 1 ≤ size) (delta : Int)
    (s : Int × Int) (hd : delta ≠ 0) :
    normAxis true size count hs delta s
      = loopDown size count hs (loopUp size count hs s.1 (s.2 - delta)).1
          (loopUp size count hs s.1 (s.2 - delta)).2 := by
  simp only [normAxis, if_pos hd, if_true]

/-- Concrete run of the column-list builder: tile width 256, viewport
width 600, wrapping axis of four columns, anchored at column 0 with
offset 0. -/
theorem colList_sample :
    colList true 256 4 600 (by norm_num) 0 0 = [0, 1, 2] := by
  rw [colList_step true 256 4 600 (by norm_num) 0 0 (by norm_num) (by simp)]
  norm_num
  rw [colList_step true 256 4 600 (by norm_num) 1 256 (by norm_num) (by simp)]
  norm_num
  rw [colList_step true 256 4 600 (by norm_num) 2 512 (by norm_num) (by simp)]
  norm_num
  rw [colList_stop true 256 4 600 (by norm_num) 3 768 (by norm_num)]

/-! ## The claims -/

/-- Claim C1: on a wrapping axis with `tileSize ≥ 1` and `tileCount ≥ 1`,
a pan-normalization call from a state satisfying `-tileSize < keyOffset ≤ 0`
and `0 ≤ keyCoord < tileCount` returns a state satisfying the same bounds,
for every delta. -/
theorem normalization_invariant (size count delta coord offset : Int)
    (hs : 1 ≤ size) (hc : 1 ≤ count)
    (h1 : -size < offset) (h2 : offset ≤ 0) (h3 : 0 ≤ coord) (h4 : coord < count) :
    -size < (normAxis true size count hs delta (coord, offset)).2 ∧
    (normAxis true size count hs delta (coord, offset)).2 ≤ 0 ∧
    0 ≤ (normAxis true size count hs delta (coord, offset)).1 ∧
    (normAxis true size count hs delta (coord, offset)).1 < count :=
  normAxis_wrap_range size count hs hc delta (coord, offset) h1 h2 h3 h4

theorem normalization_invariant_w :
    ((1 : Int) ≤ 256 ∧ (1 : Int) ≤ 4 ∧ -(256 : Int) < 0 ∧ (0 : Int) ≤ 0 ∧
      (0 : Int) ≤ 0 ∧ (0 : Int) < 4) ∧
    (-(256 : Int) < (normAxis true 256 4 (by norm_num) 300 (0, 0)).2 ∧
      (normAxis true 256 4 (by norm_num) 300 (0, 0)).2 ≤ 0 ∧
      0 ≤ (normAxis true 256 4 (by norm_num) 300 (0, 0)).1 ∧
      (normAxis true 256 4 (by norm_num) 300 (0, 0)).1 < 4) :=
  ⟨by norm_num,
   normalization_invariant 256 4 300 0 0 (by norm_num) (by norm_num)
     (by norm_num) (by norm_num) (by norm_num) (by norm_num)⟩

/-- Claim C2 (counterexample): with `tileCountX = 4`, `tileWidth = 256`,
wrapping, from `keyCol = 0`, `keyOffsetX = 0`, a pan of delta 300 does NOT
yield `keyCol = 1`: the code shifts the offset to `-300` and the second
loop wraps the column backwards to 3. -/
theorem pan_wraparound_pos_cex :
    normAxis true 256 4 (by norm_num) 300 ((0 : Int), (0 : Int)) ≠ (1, -44) := by
  rw [normAxis_wrap_eq 256 4 (by norm_num) 300 (0, 0) (by norm_num)]
  norm_num
  rw [loopUp_stop 256 4 (by norm_num) 0 (-300) (by norm_num)]
  norm_num
  rw [loopDown_step 256 4 (by norm_num) 0 (-300) (by norm_num)]
  norm_num
  rw [loopDown_stop 256 4 (by norm_num) 3 (-44) (by norm_num)]
  decide

/-- Claim C2 (amended): with `tileCountX = 4`, `tileWidth = 256`, wrapping,
from `keyCol = 0`, `keyOffsetX = 0`, a pan of delta 300 yields
`keyCol = 3` and `keyOffsetX = -44`. -/
theorem pan_wraparound_pos_amended :
    normAxis true 256 4 (by norm_num) 300 ((0 : Int), (0 : Int)) = (3, -44) := by
  rw [normAxis_wrap_eq 256 4 (by norm_num) 300 (0, 0) (by norm_num)]
  norm_num
  rw [loopUp_stop 256 4 (by norm_num) 0 (-300) (by norm_num)]
  norm_num
  rw [loopDown_step 256 4 (by norm_num) 0 (-300) (by norm_num)]
  norm_num
  rw [loopDown_stop 256 4 (by norm_num) 3 (-44) (by norm_num)]

/-- Claim C3 (counterexample): same grid, a pan of delta `-50` does NOT
yield `keyCol = 3`: the offset becomes `+50` and the first loop advances
the column forwards to 1. -/
theorem pan_wraparound_neg_cex :
    normAxis true 256 4 (by norm_num) (-50) ((0 : Int), (0 : Int)) ≠ (3, -206) := by
  rw [normAxis_wrap_eq 256 4 (by norm_num) (-50) (0, 0) (by norm_num)]
  norm_num
  rw [loopUp_step 256 4 (by norm_num) 0 50 (by norm_num)]
  norm_num
  rw [loopUp_stop 256 4 (by norm_num) 1 (-206) (by norm_num)]
  norm_num
  rw [loopDown_stop 256 4 (by norm_num) 1 (-206) (by norm_num)]
  decide

/-- Claim C3 (amended): with `tileCountX = 4`, `tileWidth = 256`, wrapping,
from `keyCol = 0`, `keyOffsetX = 0`, a pan of delta `-50` yields
`keyCol = 1` and `keyOffsetX = -206`. -/
theorem pan_wraparound_neg_amended :
    normAxis true 256 4 (by norm_num) (-50) ((0 : Int), (0 : Int)) = (1, -206) := by
  rw [normAxis_wrap_eq 256 4 (by norm_num) (-50) (0, 0) (by norm_num)]
  norm_num
  rw [loopUp_step 256 4 (by norm_num) 0 50 (by norm_num)]
  norm_num
  rw [loopUp_stop 256 4 (by norm_num) 1 (-206) (by norm_num)]
  norm_num
  rw [loopDown_stop 256 4 (by norm_num) 1 (-206) (by norm_num)]

/-- Claim C5: when the tile source rejects the requested level,
`zoom_level` returns `False`, leaves every field of the widget state
exactly as it was, and performs no redraw (and, being a total function of
the model, never throws). -/
theorem zoom_rejection_atomic (src : TileSource) (s : WidgetState) (lvl : Int)
    (h : src.UseLevel lvl = false) :
    zoom_level src s lvl = (false, s, 0) := by
  simp [zoom_level, h]

theorem zoom_rejection_atomic_w :
    rejectAllSrc.UseLevel 5 = false ∧
    zoom_level rejectAllSrc sampleState 5 = (false, sampleState, 0) :=
  ⟨rfl, zoom_rejection_atomic rejectAllSrc sampleState 5 rfl⟩

/-- Claim C8: on a bounded axis (`wrap = false`) a pan call never changes
the key coordinate or the key offset, whatever the delta. -/
theorem bounded_axis_pan_inert (size count : Int) (hs : 1 ≤ size)
    (delta : Int) (s : Int × Int) :
    normAxis false size count hs delta s = s := by
  simp [normAxis]

theorem bounded_axis_pan_inert_w :
    ((1 : Int) ≤ 256) ∧
    normAxis false 256 4 (by norm_num) 300 ((0 : Int), (0 : Int)) = (0, 0) :=
  ⟨by norm_num, bounded_axis_pan_inert 256 4 (by norm_num) 300 (0, 0)⟩

/-- Claim C4 (counterexample): with viewport width 0 the column list is
NOT always a single entry: anchored at column 0 with key offset 0 (a
normalized state) the `while` guard `x_pix_start < view_width` is false at
entry, so the list is empty. -/
theorem enumerator_min_one_cex :
    colList true 256 4 0 (by norm_num) 0 0 = [] :=
  colList_stop true 256 4 0 (by norm_num) 0 0 (by norm_num)

/-- Claim C4 (amended): with viewport width 0 and a normalized key offset,
the column list holds exactly one entry — the key column — when the key
offset is strictly negative, and is empty when the key offset is zero
(the `while` loop tests its condition before the body executes). -/
theorem enumerator_min_one_amended (wrap : Bool) (size count : Int)
    (hs : 1 ≤ size) (coord offset : Int) (h1 : -size < offset) (h2 : offset ≤ 0) :
    colList wrap size count 0 hs coord offset
      = if offset < 0 then [coord] else [] :=
  colList_width_zero wrap size count hs coord offset h1 h2

theorem enumerator_min_one_amended_w :
    ((1 : Int) ≤ 256 ∧ -(256 : Int) < -44 ∧ -(44 : Int) ≤ 0) ∧
    colList true 256 4 0 (by norm_num) 0 (-44)
      = (if (-44 : Int) < 0 then [0] else []) :=
  ⟨by norm_num,
   enumerator_min_one_amended true 256 4 (by norm_num) 0 (-44)
     (by norm_num) (by norm_num)⟩

/-- Claim C6: on a wrapping axis, panning by `a` and then by `b` from a
normalized anchor gives exactly the same anchor as panning once by
`a + b`. -/
theorem pan_composition (size count a b coord offset : Int)
    (hs : 1 ≤ size) (hc : 1 ≤ count)
    (h1 : -size < offset) (h2 : offset ≤ 0) (h3 : 0 ≤ coord) (h4 : coord < count) :
    normAxis true size count hs b (normAxis true size count hs a (coord, offset))
      = normAxis true size count hs (a + b) (coord, offset) := by
  obtain ⟨hA1, hA2, hA3, hA4⟩ :=
    normAxis_wrap_range size count hs hc a (coord, offset) h1 h2 h3 h4
  obtain ⟨hB1, hB2, hB3, hB4⟩ :=
    normAxis_wrap_range size count hs hc b
      (normAxis true size count hs a (coord, offset)) hA1 hA2 hA3 hA4
  obtain ⟨hT1, hT2, hT3, hT4⟩ :=
    normAxis_wrap_range size count hs hc (a + b) (coord, offset) h1 h2 h3 h4
  apply axis_norm_inj size count hs hc _ _ hB1 hB2 hB3 hB4 hT1 hT2 hT3 hT4
  have v1 := normAxis_wrap_val size count hs a (coord, offset)
  have v2 := normAxis_wrap_val size count hs b
    (normAxis true size count hs a (coord, offset))
  have v3 := normAxis_wrap_val size count hs (a + b) (coord, offset)
  have v4 := v2.trans (Int.ModEq.sub_right b v1)
  have heq : axisVal size (coord, offset) - a - b
      = axisVal size (coord, offset) - (a + b) := by ring
  rw [heq] at v4
  exact v4.trans v3.symm

theorem pan_composition_w :
    ((1 : Int) ≤ 256 ∧ (1 : Int) ≤ 4 ∧ -(256 : Int) < 0 ∧ (0 : Int) ≤ 0 ∧
      (0 : Int) ≤ 0 ∧ (0 : Int) < 4) ∧
    normAxis true 256 4 (by norm_num) (-50)
        (normAxis true 256 4 (by norm_num) 300 (0, 0))
      = normAxis true 256 4 (by norm_num) (300 + -50) (0, 0) :=
  ⟨by norm_num,
   pan_composition 256 4 300 (-50) 0 0 (by norm_num) (by norm_num)
     (by norm_num) (by norm_num) (by norm_num) (by norm_num)⟩

/-- Claim C7: with tile width 256 and viewport width 600, starting from
key offset 0 on a wrapping axis, the column list has exactly 3 entries
(pixel cursor 0, 256, 512 all below 600; 768 stops the loop), for any
starting column and any tile count of at least one. -/
theorem enumerator_coverage (count coord : Int) (_hc : 1 ≤ count) :
    (colList true 256 count 600 (by norm_num) coord 0).length = 3 := by
  rw [colList_step true 256 count 600 (by norm_num) coord 0 (by norm_num) (by simp)]
  rw [colList_step true 256 count 600 (by norm_num) ((coord + 1) % count) (0 + 256)
    (by norm_num) (by simp)]
  rw [colList_step true 256 count 600 (by norm_num)
    (((coord + 1) % count + 1) % count) (0 + 256 + 256) (by norm_num) (by simp)]
  rw [colList_stop true 256 count 600 (by norm_num)
    ((((coord + 1) % count + 1) % count + 1) % count) (0 + 256 + 256 + 256)
    (by norm_num)]
  rfl

theorem enumerator_coverage_w :
    ((1 : Int) ≤ 4) ∧ (colList true 256 4 600 (by norm_num) 0 0).length = 3 :=
  ⟨by norm_num, enumerator_coverage 4 0 (by norm_num)⟩

/-- Claim C9: for every starting offset (hence every finite delta folded
into it) and every tile size of at least one pixel, both normalization
`while` loops reach their exit condition after finitely many iterations:
some finite fuel makes the step-counting transcription of each loop return
the loop's result instead of running out. -/
theorem normalize_loops_terminate (size count coord offset : Int)
    (hs : 1 ≤ size) (_hc : 1 ≤ count) :
    (∃ n : Nat, loopUpFuel size count n coord offset
        = some (loopUp size count hs coord offset)) ∧
    (∃ n : Nat, loopDownFuel size count n coord offset
        = some (loopDown size count hs coord offset)) :=
  ⟨⟨offset.toNat, loopUpFuel_correct size count hs offset.toNat coord offset le_rfl⟩,
   ⟨(-offset).toNat,
    loopDownFuel_correct size count hs (-offset).toNat coord offset le_rfl⟩⟩

theorem normalize_loops_terminate_w :
    ((1 : Int) ≤ 256 ∧ (1 : Int) ≤ 4) ∧
    ((∃ n : Nat, loopUpFuel 256 4 n 0 (-300)
        = some (loopUp 256 4 (by norm_num) 0 (-300))) ∧
     (∃ n : Nat, loopDownFuel 256 4 n 0 (-300)
        = some (loopDown 256 4 (by norm_num) 0 (-300)))) :=
  ⟨by norm_num,
   normalize_loops_terminate 256 4 0 (-300) (by norm_num) (by norm_num)⟩

/-- Claim C10: if the key column is a valid tile coordinate
(`0 ≤ keyCol < tileCountX`, `tileCountX ≥ 1`), then every column the
enumerator emits lies in `[0, tileCountX)`, on wrapping and bounded axes
alike. -/
theorem enumerator_coords_valid (wrap : Bool) (size count width coord pix : Int)
    (hs : 1 ≤ size) (hc : 1 ≤ count) (h3 : 0 ≤ coord) (h4 : coord < count) :
    ∀ x ∈ colList wrap size count width hs coord pix, 0 ≤ x ∧ x < count :=
  colList_mem_range wrap size count width hs hc (width - pix).toNat coord pix
    le_rfl h3 h4

theorem enumerator_coords_valid_w :
    ((1 : Int) ≤ 256 ∧ (1 : Int) ≤ 4 ∧ (0 : Int) ≤ 0 ∧ (0 : Int) < 4) ∧
    ((0 : Int) ≤ 1 ∧ (1 : Int) < 4) :=
  ⟨by norm_num,
   enumerator_coords_valid true 256 4 600 0 0 (by norm_num) (by norm_num)
     (by norm_num) (by norm_num) 1 (by rw [colList_sample]; simp)⟩

end PySlipQt
